import Mathlib

/-!
Shallow embedding of `src/src/render/shade.rs` (shader parameter handling of a
graphics library): the `Parameter` capability, the `ShaderParam` linking
protocol, the empty parameter source (`Option<R>`), and the dynamic
`ParamDictionary` source.

Conventions of the embedding:
* Rust `Vec<T>` becomes `List T`; `usize`/`u16` indices become `Nat` (the module
  performs no arithmetic on them, so no overflow can occur);
* operations that can panic in Rust (`unwrap`, out-of-range `vec[i]` indexing)
  return `Option`/an `Outcome` with an explicit `panic` alternative;
* `RefCell<T>` interior mutability is modelled by storing the cell's current
  value: mutating a cell between calls is passing a different dictionary value;
* opaque reference-counted GPU handles (`handle::Texture`, `handle::Sampler`,
  `handle::RawBuffer`) become type parameters `Tex`, `Smp`, `Buf`.
-/

/-- `UniformValue` of the external `device::shade` module. Modelled from the spec:
a closed tagged union over scalar int/float, int/float vectors of width 2-4 and
float matrices 2x2/3x3/4x4; immutable, with structural equality and no implicit
conversion between kinds. Float payloads are carried as opaque 32-bit patterns
(`Nat`) because this module never computes with them — it only stores, copies
and compares them. -/
inductive UniformValue : Type where
  | I32 (v : Int)
  | F32 (bits : Nat)
  | I32Vector2 (a b : Int)
  | I32Vector3 (a b c : Int)
  | I32Vector4 (a b c d : Int)
  | F32Vector2 (a b : Nat)
  | F32Vector3 (a b c : Nat)
  | F32Vector4 (a b c d : Nat)
  | F32Matrix2 (rows : (Nat × Nat) × (Nat × Nat))
  | F32Matrix3 (rows : (Nat × Nat × Nat) × (Nat × Nat × Nat) × (Nat × Nat × Nat))
  | F32Matrix4 (rows : (Nat × Nat × Nat × Nat) × (Nat × Nat × Nat × Nat) ×
      (Nat × Nat × Nat × Nat) × (Nat × Nat × Nat × Nat))
deriving DecidableEq, Repr

/-- `TextureParam` (line 54): a texture handle with an optional sampler. -/
abbrev TextureParam (Tex Smp : Type) : Type := Tex × Option Smp

/-- `ParameterError` (lines 57-73): an error on either the parameter storage or
the program side. -/
inductive ParameterError : Type where
  | MissingSelf
  | MissingUniform (name : String)
  | BadUniform (name : String)
  | MissingBlock (name : String)
  | BadBlock (name : String)
  | MissingTexture (name : String)
  | BadTexture (name : String)
deriving DecidableEq, Repr

/-- `ParameterId` (line 76): parameter index, `u16` in the source. Modelled as
`Nat`: the module does no arithmetic on ids and the `id as usize` cast is the
identity on the representable range. -/
abbrev ParameterId : Type := Nat

/-- Modelled from the spec: the external `UniformVar` reflection record (from
`device::shade`, not under `src/`) — "name (string) plus kind/shape metadata".
This module reads only the name, so the kind metadata is omitted. -/
structure UniformVar : Type where
  name : String
deriving DecidableEq, Repr

/-- Modelled from the spec: the external `BlockVar` reflection record; only the
name is read by this module. -/
structure BlockVar : Type where
  name : String
deriving DecidableEq, Repr

/-- Modelled from the spec: the external `SamplerVar` reflection record (texture
variables); only the name is read by this module. -/
structure SamplerVar : Type where
  name : String
deriving DecidableEq, Repr

/-- Modelled from the spec: the external `ProgramInfo` — three ordered
sequences of reflected variables (uniforms, blocks, textures) describing one
compiled program's declared interface; the order defines `ParameterId`
assignment. -/
structure ProgramInfo : Type where
  uniforms : List UniformVar
  blocks : List BlockVar
  textures : List SamplerVar
deriving DecidableEq, Repr

/-- Modelled from the spec: the external `ParamStorage` contract — three arrays
of optional values (uniform, block handle, texture parameter), each sized to
match a program's declared variable counts, indexed by `ParameterId`. -/
structure ParamStorage (Tex Smp Buf : Type) : Type where
  uniforms : List (Option UniformValue)
  blocks : List (Option Buf)
  textures : List (Option (TextureParam Tex Smp))
deriving DecidableEq, Repr

/-- Result of a linking call: Rust's `Result<L, ParameterError>` extended with a
`panic` alternative for `unwrap` failures and out-of-range indexing, which abort
the process instead of returning. -/
inductive Outcome (L : Type) : Type where
  | ok (link : L)
  | err (e : ParameterError)
  | panic
deriving DecidableEq, Repr

/-- Rust `vec[i] = v` assignment on an array of optional values: out-of-range is
a panic (`none`); in range, only slot `i` is replaced. -/
def writeAt {A : Type} (l : List (Option A)) (i : Nat) (v : A) :
    Option (List (Option A)) :=
  if i < l.length then some (l.set i (some v)) else none

/-- The `Parameter` trait (lines 79-88): per-category compatibility checks,
whose trait-level defaults return `false`, and a write into the parameter
storage at a given id. -/
structure Parameter (P Tex Smp Buf : Type) : Type where
  check_uniform : UniformVar → Bool := fun _ => false
  check_block : BlockVar → Bool := fun _ => false
  check_texture : SamplerVar → Bool := fun _ => false
  put : P → ParameterId → ParamStorage Tex Smp Buf →
    Option (ParamStorage Tex Smp Buf)

/-- `impl<T: Clone + Into<UniformValue>> Parameter for T` (lines 90-98):
`check_uniform` accepts unconditionally, `put` writes the converted value into
the uniform array at the id. `into` is the fixed total coercion of the concrete
value kind into `UniformValue`. -/
def uniformParameter {P Tex Smp Buf : Type} (into : P → UniformValue) :
    Parameter P Tex Smp Buf where
  check_uniform := fun _ => true
  put := fun x id storage =>
    match writeAt storage.uniforms id (into x) with
    | none => none
    | some us => some { storage with uniforms := us }

/-- `impl Parameter for handle::RawBuffer` (lines 100-108): `check_block`
accepts unconditionally, `put` writes the buffer handle into the block array. -/
def bufferParameter {Tex Smp Buf : Type} : Parameter Buf Tex Smp Buf where
  check_block := fun _ => true
  put := fun b id storage =>
    match writeAt storage.blocks id b with
    | none => none
    | some bs => some { storage with blocks := bs }

/-- `impl Parameter for TextureParam` (lines 110-118): `check_texture` accepts
unconditionally, `put` writes the texture parameter into the texture array. -/
def textureParameter {Tex Smp Buf : Type} :
    Parameter (TextureParam Tex Smp) Tex Smp Buf where
  check_texture := fun _ => true
  put := fun t id storage =>
    match writeAt storage.textures id t with
    | none => none
    | some ts => some { storage with textures := ts }

/-- `<Option<R> as ShaderParam>::create_link` (lines 137-151), the empty
parameter source: succeeds with the empty link `()` only when the program
declares no variables at all; otherwise reports the first declared variable,
checking uniforms, then blocks, then textures. The `src` argument mirrors the
source's ignored `Option<&Option<R>>` parameter. -/
def OptionShaderParam.create_link (R : Type) (_src : Option (Option R))
    (info : ProgramInfo) : Outcome Unit :=
  match info.uniforms.head? with
  | some u => .err (.MissingUniform u.name)
  | none =>
    match info.blocks.head? with
    | some b => .err (.MissingBlock b.name)
    | none =>
      match info.textures.head? with
      | some t => .err (.MissingTexture t.name)
      | none => .ok ()

/-- `<Option<R> as ShaderParam>::fill_params` (lines 153-155): a no-op on the
storage. -/
def OptionShaderParam.fill_params {Tex Smp Buf : Type} (_self : Option Unit)
    (_link : Unit) (params : ParamStorage Tex Smp Buf) :
    ParamStorage Tex Smp Buf :=
  params

/-- `NamedCell` (lines 159-164): a named cell containing an arbitrary value.
The `RefCell` is modelled by its current contents. -/
structure NamedCell (T : Type) : Type where
  name : String
  value : T
deriving DecidableEq, Repr

/-- `ParamDictionary` (lines 167-174): a dictionary of named parameter cells,
meant to be shared between different programs. -/
structure ParamDictionary (Tex Smp Buf : Type) : Type where
  uniforms : List (NamedCell UniformValue)
  blocks : List (NamedCell Buf)
  textures : List (NamedCell (TextureParam Tex Smp))

/-- `ParamDictionaryLink` (lines 177-182): per declared program variable, the
index of the dictionary cell it resolved to. -/
structure ParamDictionaryLink : Type where
  uniforms : List Nat
  blocks : List Nat
  textures : List Nat
deriving DecidableEq, Repr

/-- One category of `ParamDictionary::create_link` (lines 196-204):
`vars.iter().map(|var| cells.iter().position(|c| c.name == var.name).unwrap()).collect()`.
`position` yields the index of the first cell whose name matches exactly; the
`unwrap` of a failed `position` is a panic, so the whole traversal yields
`none`. -/
def resolveAll {T V : Type} (getName : V → String) (cells : List (NamedCell T)) :
    List V → Option (List Nat)
  | [] => some []
  | var :: rest =>
    match cells.findIdx? (fun c => c.name == getName var) with
    | none => none
    | some i =>
      match resolveAll getName cells rest with
      | none => none
      | some more => some (i :: more)

/-- `<ParamDictionary<R> as ShaderParam>::create_link` (lines 188-206): with no
instance (`this` is `None`) fail with `MissingSelf`; otherwise resolve each
declared name of each category to the position of the first dictionary cell of
that category with the same name, panicking (`unwrap`) on a missing name. -/
def ParamDictionary.create_link {Tex Smp Buf : Type}
    (this : Option (ParamDictionary Tex Smp Buf)) (info : ProgramInfo) :
    Outcome ParamDictionaryLink :=
  match this with
  | none => .err .MissingSelf
  | some d =>
    match resolveAll (fun v => v.name) d.uniforms info.uniforms,
          resolveAll (fun v => v.name) d.blocks info.blocks,
          resolveAll (fun v => v.name) d.textures info.textures with
    | some us, some bs, some ts =>
      .ok { uniforms := us, blocks := bs, textures := ts }
    | _, _, _ => .panic

/-- One category loop of `ParamDictionary::fill_params` (lines 209-217):
`for &id in link.xs.iter() { params.xs[id] = Some(self.xs[id].value.borrow().clone()); }` —
for each link entry `id`, read the dictionary cell at index `id` and write its
current value at storage slot `id`; either index out of range is a panic. -/
def fillLoop {T : Type} (cells : List (NamedCell T)) :
    List Nat → List (Option T) → Option (List (Option T))
  | [], arr => some arr
  | id :: rest, arr =>
    match cells[id]? with
    | none => none
    | some c =>
      match writeAt arr id c.value with
      | none => none
      | some arr2 => fillLoop cells rest arr2

/-- `<ParamDictionary<R> as ShaderParam>::fill_params` (lines 208-218): run the
category loop for uniforms, blocks and textures in order. -/
def ParamDictionary.fill_params {Tex Smp Buf : Type}
    (d : ParamDictionary Tex Smp Buf) (link : ParamDictionaryLink)
    (params : ParamStorage Tex Smp Buf) :
    Option (ParamStorage Tex Smp Buf) :=
  match fillLoop d.uniforms link.uniforms params.uniforms with
  | none => none
  | some us =>
    match fillLoop d.blocks link.blocks params.blocks with
    | none => none
    | some bs =>
      match fillLoop d.textures link.textures params.textures with
      | none => none
      | some ts => some { uniforms := us, blocks := bs, textures := ts }

/-! ## Concrete instances used by the claim theorems

Handle types are instantiated at `Unit`; values are small literal dictionaries,
programs and storages. -/

/-- A dictionary whose uniform cells are not order-aligned with `progSwap`:
cell `"b"` sits at index 0 and cell `"a"` at index 1. -/
def dictSwap : ParamDictionary Unit Unit Unit :=
  { uniforms := [⟨"b", .I32 10⟩, ⟨"a", .I32 20⟩], blocks := [], textures := [] }

/-- A program declaring uniforms `"a"`, `"b"` in that order (positions 0, 1). -/
def progSwap : ProgramInfo :=
  { uniforms := [⟨"a"⟩, ⟨"b"⟩], blocks := [], textures := [] }

/-- The link `create_link` produces for `dictSwap`/`progSwap`. -/
def linkSwap : ParamDictionaryLink :=
  { uniforms := [1, 0], blocks := [], textures := [] }

/-- Fresh storage sized to `progSwap`'s declared counts (2/0/0). -/
def storSwap : ParamStorage Unit Unit Unit :=
  { uniforms := [none, none], blocks := [], textures := [] }

/-- A dictionary with an extra cell in front of the one the program needs. -/
def dictOob : ParamDictionary Unit Unit Unit :=
  { uniforms := [⟨"x", .I32 1⟩, ⟨"u", .I32 2⟩], blocks := [], textures := [] }

/-- A program declaring the single uniform `"u"`. -/
def progOob : ProgramInfo := { uniforms := [⟨"u"⟩], blocks := [], textures := [] }

/-- Fresh storage sized to `progOob`'s declared counts (1/0/0). -/
def storOob : ParamStorage Unit Unit Unit :=
  { uniforms := [none], blocks := [], textures := [] }

/-- A dictionary with no cells at all. -/
def dictEmpty : ParamDictionary Unit Unit Unit :=
  { uniforms := [], blocks := [], textures := [] }

/-- A program declaring the single uniform `"u"` (used by the missing-name
claims). -/
def progU : ProgramInfo := { uniforms := [⟨"u"⟩], blocks := [], textures := [] }

/-- Dictionary for the link-shape witness: the program's names resolve to
non-initial positions. -/
def dictWit : ParamDictionary Unit Unit Unit :=
  { uniforms := [⟨"a", .I32 1⟩, ⟨"u", .I32 2⟩],
    blocks := [⟨"bb", ()⟩],
    textures := [] }

/-- Program for the link-shape witness. -/
def progWit : ProgramInfo :=
  { uniforms := [⟨"u"⟩], blocks := [⟨"bb"⟩], textures := [] }

/-- The link `create_link` produces for `dictWit`/`progWit`. -/
def linkWit : ParamDictionaryLink :=
  { uniforms := [1], blocks := [0], textures := [] }

/-- Dictionary for the idempotence witness: one cell per category. -/
def dictFill : ParamDictionary Unit Unit Unit :=
  { uniforms := [⟨"u", .I32 7⟩],
    blocks := [⟨"b", ()⟩],
    textures := [⟨"t", ((), none)⟩] }

/-- Link for the idempotence witness. -/
def linkFill : ParamDictionaryLink :=
  { uniforms := [0], blocks := [0], textures := [0] }

/-- Fresh storage for the idempotence witness (1/1/1). -/
def storFill : ParamStorage Unit Unit Unit :=
  { uniforms := [none], blocks := [none], textures := [none] }

/-- The storage produced by filling `storFill` through `linkFill`. -/
def filledFill : ParamStorage Unit Unit Unit :=
  { uniforms := [some (.I32 7)], blocks := [some ()], textures := [some ((), none)] }

/-- Storage for the `put` frame-condition witness, shaped like the spec's
example program: one declared uniform, zero blocks, zero textures, so the three
category arrays have unequal lengths. -/
def storUneven : ParamStorage Unit Unit Unit :=
  { uniforms := [none], blocks := [], textures := [] }

/-! ## Theorems -/

/-- Claim C2: the spec requires a typed `Missing*` error when a declared name
has no match in the dictionary; the code instead reaches the `unwrap` on a
failed `position` and panics, producing neither an `Ok` link nor a typed
`Err`. Concretely, linking the empty dictionary against a program declaring
uniform `"u"` aborts. -/
theorem create_link_missing_name_panics_bug :
    ParamDictionary.create_link (some dictEmpty) progU = .panic := by decide

/-- Claim C7: `ParamDictionary::create_link` with `this == None` returns
`MissingSelf` for every program — even one whose names could never resolve —
so no name resolution (which would panic on `dictEmpty`-like sources) is ever
attempted. -/
theorem dictionary_none_missing_self_no_resolution
    (Tex Smp Buf : Type) (info : ProgramInfo) :
    @ParamDictionary.create_link Tex Smp Buf none info = .err .MissingSelf :=
  rfl

/-- Claim C10: each of the three `Parameter` implementations accepts exactly
its own category's compatibility check: the uniform implementation answers
`true` only to `check_uniform`, the buffer implementation only to
`check_block`, the texture implementation only to `check_texture`; all other
answers are the trait defaults, `false`. -/
theorem parameter_check_categories (P Tex Smp Buf : Type)
    (into : P → UniformValue) (uv : UniformVar) (bv : BlockVar) (sv : SamplerVar) :
    ((@uniformParameter P Tex Smp Buf into).check_uniform uv = true ∧
      (@uniformParameter P Tex Smp Buf into).check_block bv = false ∧
      (@uniformParameter P Tex Smp Buf into).check_texture sv = false) ∧
    ((@bufferParameter Tex Smp Buf).check_block bv = true ∧
      (@bufferParameter Tex Smp Buf).check_uniform uv = false ∧
      (@bufferParameter Tex Smp Buf).check_texture sv = false) ∧
    ((@textureParameter Tex Smp Buf).check_texture sv = true ∧
      (@textureParameter Tex Smp Buf).check_uniform uv = false ∧
      (@textureParameter Tex Smp Buf).check_block bv = false) :=
  ⟨⟨rfl, rfl, rfl⟩, ⟨rfl, rfl, rfl⟩, ⟨rfl, rfl, rfl⟩⟩

/-- Claim C1: the post-fill invariant does not hold on the code. `fill_params`
indexes the storage with the dictionary index stored in the link instead of
the variable's position in the program's declared order. For `dictSwap` /
`progSwap` linking succeeds with indices `[1, 0]`, and filling a correctly
sized fresh storage writes the two cell values into swapped slots: position 0
declares `"a"` whose cell holds `I32 20`, yet slot 0 receives `I32 10` (the
value of `"b"`). -/
theorem fill_params_wrong_slot_bug :
    ParamDictionary.create_link (some dictSwap) progSwap = .ok linkSwap ∧
    ParamDictionary.fill_params dictSwap linkSwap storSwap =
      some { uniforms := [some (.I32 10), some (.I32 20)],
             blocks := [], textures := [] } ∧
    (dictSwap.uniforms.map (fun c => c.name))[1]? = some "a" ∧
    (progSwap.uniforms.map (fun v => v.name))[0]? = some "a" ∧
    (dictSwap.uniforms.map (fun c => c.value))[1]? = some (.I32 20) := by
  refine ⟨by decide, by decide, by decide, by decide, by decide⟩

/-- Claim C3: fill of a successfully produced link is not free of
out-of-bounds access. For `dictOob` / `progOob` linking succeeds with index
`[1]`, but filling a storage sized exactly to the program's declared counts
(uniform array of length 1) indexes slot 1 of that array and panics. -/
theorem fill_params_out_of_bounds_bug :
    ParamDictionary.create_link (some dictOob) progOob = .ok ⟨[1], [], []⟩ ∧
    storOob.uniforms.length = progOob.uniforms.length ∧
    storOob.blocks.length = progOob.blocks.length ∧
    storOob.textures.length = progOob.textures.length ∧
    ParamDictionary.fill_params dictOob ⟨[1], [], []⟩ storOob = none := by
  refine ⟨by decide, by decide, by decide, by decide, by decide⟩

/-- Claim C4: for the empty parameter source, `create_link` succeeds (with the
empty link) exactly when the program declares zero uniforms, zero blocks and
zero textures; otherwise it fails with the `Missing*` error carrying the name
of the first declared variable, checking the uniforms list first, then blocks,
then textures. -/
theorem empty_source_create_link_spec (R : Type) (src : Option (Option R))
    (info : ProgramInfo) :
    (OptionShaderParam.create_link R src info = .ok () ↔
      (info.uniforms = [] ∧ info.blocks = [] ∧ info.textures = [])) ∧
    (∀ u rest, info.uniforms = u :: rest →
      OptionShaderParam.create_link R src info = .err (.MissingUniform u.name)) ∧
    (∀ b rest, info.uniforms = [] → info.blocks = b :: rest →
      OptionShaderParam.create_link R src info = .err (.MissingBlock b.name)) ∧
    (∀ t rest, info.uniforms = [] → info.blocks = [] → info.textures = t :: rest →
      OptionShaderParam.create_link R src info = .err (.MissingTexture t.name)) := by
  obtain ⟨us, bs, ts⟩ := info
  cases us <;> cases bs <;> cases ts <;>
    simp [OptionShaderParam.create_link]

/-- Witness for C4: the empty source links successfully against a program with
no variables, and fails with `MissingUniform "u"` against a program declaring
uniform `"u"` and block `"b"`. -/
theorem empty_source_create_link_spec_witness :
    OptionShaderParam.create_link Unit none ⟨[], [], []⟩ = .ok () ∧
    OptionShaderParam.create_link Unit none ⟨[⟨"u"⟩], [⟨"b"⟩], []⟩ =
      .err (.MissingUniform "u") :=
  ⟨(empty_source_create_link_spec Unit none ⟨[], [], []⟩).1.mpr ⟨rfl, rfl, rfl⟩,
   (empty_source_create_link_spec Unit none ⟨[⟨"u"⟩], [⟨"b"⟩], []⟩).2.1 ⟨"u"⟩ [] rfl⟩

/-- A successful `resolveAll` returns one index per declared variable. -/
theorem resolveAll_length {T V : Type} (g : V → String)
    (cells : List (NamedCell T)) (vs : List V) (r : List Nat)
    (h : resolveAll g cells vs = some r) : r.length = vs.length := by
  induction vs generalizing r with
  | nil =>
    simp only [resolveAll] at h
    cases h
    rfl
  | cons v rest ih =>
    simp only [resolveAll] at h
    cases h1 : List.findIdx? (fun c => c.name == g v) cells with
    | none => rw [h1] at h; cases h
    | some i =>
      rw [h1] at h
      cases h2 : resolveAll g cells rest with
      | none => rw [h2] at h; cases h
      | some more =>
        rw [h2] at h
        cases h
        simp [ih more h2]

/-- A successful `resolveAll` records, at each position, the index of the first
same-name cell for the variable at that position. -/
theorem resolveAll_get {T V : Type} (g : V → String)
    (cells : List (NamedCell T)) (vs : List V) (r : List Nat)
    (h : resolveAll g cells vs = some r) (i : Nat) (hi : i < vs.length)
    (hr : i < r.length) :
    List.findIdx? (fun c => c.name == g (vs.get ⟨i, hi⟩)) cells =
      some (r.get ⟨i, hr⟩) := by
  induction vs generalizing r i with
  | nil => exact absurd hi (Nat.not_lt_zero i)
  | cons v rest ih =>
    simp only [resolveAll] at h
    cases h1 : List.findIdx? (fun c => c.name == g v) cells with
    | none => rw [h1] at h; cases h
    | some j =>
      rw [h1] at h
      cases h2 : resolveAll g cells rest with
      | none => rw [h2] at h; cases h
      | some more =>
        rw [h2] at h
        cases h
        cases i with
        | zero => simpa using h1
        | succ i2 =>
          exact ih more h2 i2 (Nat.lt_of_succ_lt_succ hi) (Nat.lt_of_succ_lt_succ hr)

/-- A successful dictionary `create_link` is the success of all three category
resolutions. -/
theorem create_link_ok_decompose {Tex Smp Buf : Type}
    (d : ParamDictionary Tex Smp Buf) (info : ProgramInfo)
    (link : ParamDictionaryLink)
    (h : ParamDictionary.create_link (some d) info = .ok link) :
    resolveAll (fun v => v.name) d.uniforms info.uniforms = some link.uniforms ∧
    resolveAll (fun v => v.name) d.blocks info.blocks = some link.blocks ∧
    resolveAll (fun v => v.name) d.textures info.textures = some link.textures := by
  simp only [ParamDictionary.create_link] at h
  cases hu : resolveAll (fun v => v.name) d.uniforms info.uniforms with
  | none => rw [hu] at h; cases h
  | some us =>
    rw [hu] at h
    cases hb : resolveAll (fun v => v.name) d.blocks info.blocks with
    | none => rw [hb] at h; cases h
    | some bs =>
      rw [hb] at h
      cases ht : resolveAll (fun v => v.name) d.textures info.textures with
      | none => rw [ht] at h; cases h
      | some ts =>
        rw [ht] at h
        cases h
        exact ⟨rfl, rfl, rfl⟩

/-- Claim C5: when dictionary linking succeeds, each link sequence has exactly
the length of the program's corresponding declared sequence, and its entry at
every position is the dictionary index (first name match) resolved for the
declared variable at that same position. -/
theorem dictionary_link_shape {Tex Smp Buf : Type}
    (d : ParamDictionary Tex Smp Buf) (info : ProgramInfo)
    (link : ParamDictionaryLink)
    (h : ParamDictionary.create_link (some d) info = .ok link) :
    (link.uniforms.length = info.uniforms.length ∧
     link.blocks.length = info.blocks.length ∧
     link.textures.length = info.textures.length) ∧
    (∀ i (hi : i < info.uniforms.length) (hl : i < link.uniforms.length),
      List.findIdx? (fun c => c.name == (info.uniforms.get ⟨i, hi⟩).name)
        d.uniforms = some (link.uniforms.get ⟨i, hl⟩)) ∧
    (∀ i (hi : i < info.blocks.length) (hl : i < link.blocks.length),
      List.findIdx? (fun c => c.name == (info.blocks.get ⟨i, hi⟩).name)
        d.blocks = some (link.blocks.get ⟨i, hl⟩)) ∧
    (∀ i (hi : i < info.textures.length) (hl : i < link.textures.length),
      List.findIdx? (fun c => c.name == (info.textures.get ⟨i, hi⟩).name)
        d.textures = some (link.textures.get ⟨i, hl⟩)) := by
  obtain ⟨hu, hb, ht⟩ := create_link_ok_decompose d info link h
  refine ⟨⟨resolveAll_length _ _ _ _ hu, resolveAll_length _ _ _ _ hb,
    resolveAll_length _ _ _ _ ht⟩, ?_, ?_, ?_⟩
  · intro i hi hl
    exact resolveAll_get _ _ _ _ hu i hi hl
  · intro i hi hl
    exact resolveAll_get _ _ _ _ hb i hi hl
  · intro i hi hl
    exact resolveAll_get _ _ _ _ ht i hi hl

/-- Witness for C5: linking `dictWit` against `progWit` succeeds with
`linkWit`, whose sequences match the program's declared lengths. -/
theorem dictionary_link_shape_witness :
    ParamDictionary.create_link (some dictWit) progWit = .ok linkWit ∧
    (linkWit.uniforms.length = progWit.uniforms.length ∧
     linkWit.blocks.length = progWit.blocks.length ∧
     linkWit.textures.length = progWit.textures.length) :=
  ⟨by decide, (dictionary_link_shape dictWit progWit linkWit (by decide)).1⟩

/-- Counterexample to claim C6: not every `ShaderParam` implementation fails
with `MissingSelf` on a `None` source. The empty source's `create_link` ignores
its `Option` argument: with no instance and a program declaring uniform `"u"`
it answers `MissingUniform "u"`, not `MissingSelf`. -/
theorem missing_self_claim_counterexample :
    OptionShaderParam.create_link Unit none progU = .err (.MissingUniform "u") ∧
    Outcome.err (ParameterError.MissingUniform "u") ≠
      (.err .MissingSelf : Outcome Unit) :=
  ⟨by decide, by decide⟩

/-- Claim C6 as amended: for the `ParamDictionary` implementation (rather than
every implementation) and every program declaring at least one variable,
`create_link` with a `None` source fails with `MissingSelf`. -/
theorem dictionary_none_nontrivial_missing_self (Tex Smp Buf : Type)
    (info : ProgramInfo)
    (_h : 0 < info.uniforms.length + info.blocks.length + info.textures.length) :
    @ParamDictionary.create_link Tex Smp Buf none info = .err .MissingSelf :=
  rfl

/-- Witness for the amended C6: `progU` declares one variable and linking it
with a `None` dictionary source fails with `MissingSelf`. -/
theorem dictionary_none_nontrivial_missing_self_witness :
    0 < progU.uniforms.length + progU.blocks.length + progU.textures.length ∧
    @ParamDictionary.create_link Unit Unit Unit none progU = .err .MissingSelf :=
  ⟨by decide,
   dictionary_none_nontrivial_missing_self Unit Unit Unit progU (by decide)⟩

/-- Claim C8: each `put` implementation, whenever its own category's array has
a slot at the given id, writes exactly that one slot — every other slot of that
array and the whole other two arrays are unchanged — regardless of the other
two arrays' lengths; and `put` carries no state between calls: two uniform
writes at different ids always commute. -/
theorem parameter_put_frame {P Tex Smp Buf : Type} (into : P → UniformValue)
    (x : P) (b : Buf) (t : TextureParam Tex Smp) (s : ParamStorage Tex Smp Buf)
    (id : ParameterId) :
    (id < s.uniforms.length →
      ∃ s2, (uniformParameter into).put x id s = some s2 ∧
        s2.uniforms[id]? = some (some (into x)) ∧
        (∀ j, j ≠ id → s2.uniforms[j]? = s.uniforms[j]?) ∧
        s2.blocks = s.blocks ∧ s2.textures = s.textures) ∧
    (id < s.blocks.length →
      ∃ s2, (@bufferParameter Tex Smp Buf).put b id s = some s2 ∧
        s2.blocks[id]? = some (some b) ∧
        (∀ j, j ≠ id → s2.blocks[j]? = s.blocks[j]?) ∧
        s2.uniforms = s.uniforms ∧ s2.textures = s.textures) ∧
    (id < s.textures.length →
      ∃ s2, (@textureParameter Tex Smp Buf).put t id s = some s2 ∧
        s2.textures[id]? = some (some t) ∧
        (∀ j, j ≠ id → s2.textures[j]? = s.textures[j]?) ∧
        s2.uniforms = s.uniforms ∧ s2.blocks = s.blocks) ∧
    (∀ (y : P) (id2 : ParameterId), id2 ≠ id →
      Option.bind ((uniformParameter into).put x id s)
          (fun s1 => (uniformParameter into).put y id2 s1) =
        Option.bind ((uniformParameter into).put y id2 s)
          (fun s1 => (uniformParameter into).put x id s1)) := by
  refine ⟨?_, ?_, ?_, ?_⟩
  · intro hu
    refine ⟨{ s with uniforms := s.uniforms.set id (some (into x)) },
      ?_, ?_, ?_, rfl, rfl⟩
    · simp [uniformParameter, writeAt, hu]
    · simpa using List.getElem?_set_eq_of_lt (some (into x)) hu
    · intro j hj
      simpa using List.getElem?_set_ne (Ne.symm hj)
  · intro hb
    refine ⟨{ s with blocks := s.blocks.set id (some b) }, ?_, ?_, ?_, rfl, rfl⟩
    · simp [bufferParameter, writeAt, hb]
    · simpa using List.getElem?_set_eq_of_lt (some b) hb
    · intro j hj
      simpa using List.getElem?_set_ne (Ne.symm hj)
  · intro ht
    refine ⟨{ s with textures := s.textures.set id (some t) }, ?_, ?_, ?_, rfl, rfl⟩
    · simp [textureParameter, writeAt, ht]
    · simpa using List.getElem?_set_eq_of_lt (some t) ht
    · intro j hj
      simpa using List.getElem?_set_ne (Ne.symm hj)
  · intro y id2 hne
    by_cases h1 : id < s.uniforms.length <;>
      by_cases h2 : id2 < s.uniforms.length <;>
        simp [uniformParameter, writeAt, List.length_set, h1, h2, Option.bind]
    exact List.set_comm _ _ _ (Ne.symm hne)

/-- Witness for C8: on a storage with unequal category counts (uniform array of
length 1, empty block and texture arrays), a uniform `put` at id 0 succeeds,
writes slot 0 and leaves everything else as it was. -/
theorem parameter_put_frame_witness :
    0 < storUneven.uniforms.length ∧
    ∃ s2, (@uniformParameter UniformValue Unit Unit Unit (fun v => v)).put
        (.F32 5) 0 storUneven = some s2 ∧
      s2.uniforms[0]? = some (some (.F32 5)) ∧
      (∀ j, j ≠ 0 → s2.uniforms[j]? = storUneven.uniforms[j]?) ∧
      s2.blocks = storUneven.blocks ∧ s2.textures = storUneven.textures :=
  ⟨by decide,
   (parameter_put_frame (fun v => v) (.F32 5) () ((), none) storUneven 0).1
     (by decide)⟩

/-- A successful `writeAt` is an in-range `List.set`. -/
theorem writeAt_some {A : Type} (l : List (Option A)) (i : Nat) (v : A)
    (l2 : List (Option A)) (h : writeAt l i v = some l2) :
    i < l.length ∧ l2 = l.set i (some v) := by
  unfold writeAt at h
  split at h
  · cases h
    exact ⟨‹_›, rfl⟩
  · cases h

/-- One category loop of fill preserves the array length. -/
theorem fillLoop_length {T : Type} (cells : List (NamedCell T)) (ids : List Nat)
    (arr arr2 : List (Option T)) (h : fillLoop cells ids arr = some arr2) :
    arr2.length = arr.length := by
  induction ids generalizing arr with
  | nil =>
    simp only [fillLoop] at h
    cases h
    rfl
  | cons id rest ih =>
    simp only [fillLoop] at h
    cases hc : cells[id]? with
    | none => simp only [hc] at h; cases h
    | some c =>
      simp only [hc] at h
      cases hw : writeAt arr id c.value with
      | none => simp only [hw] at h; cases h
      | some arr3 =>
        simp only [hw] at h
        obtain ⟨-, rfl⟩ := writeAt_some arr id c.value arr3 hw
        simpa [List.length_set] using ih _ h

/-- A slot already holding its dictionary cell's current value keeps it through
a category loop: every write either targets another slot or rewrites the same
value. -/
theorem fillLoop_preserves {T : Type} (cells : List (NamedCell T))
    (ids : List Nat) (arr arr2 : List (Option T))
    (h : fillLoop cells ids arr = some arr2) (k : Nat) (c : NamedCell T)
    (hck : cells[k]? = some c) (hak : arr[k]? = some (some c.value)) :
    arr2[k]? = some (some c.value) := by
  induction ids generalizing arr with
  | nil =>
    simp only [fillLoop] at h
    cases h
    exact hak
  | cons id rest ih =>
    simp only [fillLoop] at h
    cases hc : cells[id]? with
    | none => simp only [hc] at h; cases h
    | some c2 =>
      simp only [hc] at h
      cases hw : writeAt arr id c2.value with
      | none => simp only [hw] at h; cases h
      | some arr3 =>
        simp only [hw] at h
        obtain ⟨hlt, rfl⟩ := writeAt_some arr id c2.value arr3 hw
        refine ih _ h ?_
        by_cases hik : id = k
        · subst hik
          rw [hck] at hc
          cases hc
          rw [List.getElem?_set_eq_of_lt _ hlt]
        · rw [List.getElem?_set_ne hik]
          exact hak

/-- After a successful category loop, every index listed in the link holds the
current value of the dictionary cell at that same index. -/
theorem fillLoop_writes {T : Type} (cells : List (NamedCell T)) (ids : List Nat)
    (arr arr2 : List (Option T)) (h : fillLoop cells ids arr = some arr2) :
    ∀ k ∈ ids, ∃ c, cells[k]? = some c ∧ arr2[k]? = some (some c.value) := by
  induction ids generalizing arr with
  | nil =>
    intro k hk
    cases hk
  | cons id rest ih =>
    intro k hk
    simp only [fillLoop] at h
    cases hc : cells[id]? with
    | none => simp only [hc] at h; cases h
    | some c =>
      simp only [hc] at h
      cases hw : writeAt arr id c.value with
      | none => simp only [hw] at h; cases h
      | some arr3 =>
        simp only [hw] at h
        obtain ⟨hlt, rfl⟩ := writeAt_some arr id c.value arr3 hw
        rcases List.mem_cons.mp hk with hk1 | hk2
        · subst hk1
          refine ⟨c, hc, ?_⟩
          refine fillLoop_preserves cells rest _ _ h k c hc ?_
          rw [List.getElem?_set_eq_of_lt _ hlt]
        · exact ih _ h k hk2

/-- An in-range `List.set` writing a value the slot already holds is the
identity. -/
theorem set_getElem?_self {A : Type} (l : List A) (i : Nat) (a : A)
    (h : l[i]? = some a) : l.set i a = l := by
  apply List.ext_getElem?
  intro j
  by_cases hj : i = j
  · subst hj
    rw [List.getElem?_set_eq_of_lt a (List.getElem?_eq_some.mp h).1]
    exact h.symm
  · rw [List.getElem?_set_ne hj]

/-- A category loop over an array whose listed slots already hold their cells'
current values succeeds and changes nothing. -/
theorem fillLoop_fixed {T : Type} (cells : List (NamedCell T)) (ids : List Nat)
    (arr : List (Option T))
    (hall : ∀ k ∈ ids, ∃ c, cells[k]? = some c ∧ arr[k]? = some (some c.value)) :
    fillLoop cells ids arr = some arr := by
  induction ids with
  | nil => rfl
  | cons id rest ih =>
    obtain ⟨c, hc, ha⟩ := hall id (List.mem_cons_self id rest)
    have hlt : id < arr.length := (List.getElem?_eq_some.mp ha).1
    have hwa : writeAt arr id c.value = some arr := by
      unfold writeAt
      rw [if_pos hlt, set_getElem?_self arr id (some c.value) ha]
    simp only [fillLoop, hc, hwa]
    exact ih (fun k hk => hall k (List.mem_cons_of_mem id hk))

/-- Rerunning a category loop on its own output succeeds and changes nothing. -/
theorem fillLoop_reapply {T : Type} (cells : List (NamedCell T)) (ids : List Nat)
    (arr arr2 : List (Option T)) (h : fillLoop cells ids arr = some arr2) :
    fillLoop cells ids arr2 = some arr2 :=
  fillLoop_fixed cells ids arr2 (fillLoop_writes cells ids arr arr2 h)

/-- Claim C9: `fill_params` is idempotent — if a fill of `s` succeeds and
produces `s2`, filling `s2` again with the same link and unchanged dictionary
cell values succeeds and returns `s2` unchanged. -/
theorem fill_params_idempotent {Tex Smp Buf : Type}
    (d : ParamDictionary Tex Smp Buf) (link : ParamDictionaryLink)
    (s s2 : ParamStorage Tex Smp Buf)
    (h : ParamDictionary.fill_params d link s = some s2) :
    ParamDictionary.fill_params d link s2 = some s2 := by
  simp only [ParamDictionary.fill_params] at h ⊢
  cases hu : fillLoop d.uniforms link.uniforms s.uniforms with
  | none => rw [hu] at h; cases h
  | some us =>
    rw [hu] at h
    cases hb : fillLoop d.blocks link.blocks s.blocks with
    | none => rw [hb] at h; cases h
    | some bs =>
      rw [hb] at h
      cases ht : fillLoop d.textures link.textures s.textures with
      | none => rw [ht] at h; cases h
      | some ts =>
        rw [ht] at h
        cases h
        rw [fillLoop_reapply d.uniforms link.uniforms s.uniforms us hu,
          fillLoop_reapply d.blocks link.blocks s.blocks bs hb,
          fillLoop_reapply d.textures link.textures s.textures ts ht]

/-- Witness for C9: filling `storFill` through `linkFill` yields `filledFill`,
and filling `filledFill` again yields `filledFill` unchanged. -/
theorem fill_params_idempotent_witness :
    ParamDictionary.fill_params dictFill linkFill storFill = some filledFill ∧
    ParamDictionary.fill_params dictFill linkFill filledFill = some filledFill :=
  ⟨by decide,
   fill_params_idempotent dictFill linkFill storFill filledFill (by decide)⟩
